import Mathlib

/-!
Verification of the orchestration core of the vision-assistant desktop
application (src/main.py) against its natural-language specification.

The Python source is shallowly embedded: pure text processing becomes pure
Lean functions on strings and character lists; the hotkey handlers, the
single-flight task gate, the cancellation token and the speech-suppression
flag become an explicit state machine driven by events; the speech pipeline,
the dictation recorder and the transcription watchdog become functions
parameterised by oracles that supply the results of the successive polls of
shared flags and the outcomes of the successive external-process
invocations.  Machine time is modelled by natural numbers (seconds or poll
ticks); fallible code returns Option or Except values.
-/

/-! ## Text normalisation and sentence segmentation

Embeds `VisionAssistant._normalize_for_speech`, the regex split
`re.split(r'(?<=[.!?])\s+', ...)` used by `_store_description_details` and
`_build_summary`, and those two methods themselves. -/

/-- Characters matched by the Python regex class `\s` (ASCII range). -/
def isPySpace (c : Char) : Bool :=
  c = ' ' || c = '\t' || c = '\n' || c = '\r' || c = '\x0b' || c = '\x0c'

/-- Characters of the regex class `[*_#]` plus the backquote, i.e. the
markdown characters removed by `_normalize_for_speech`. -/
def isMarkdownJunk (c : Char) : Bool :=
  c = '*' || c = '_' || c.toNat = 96 || c = '#'

/-- Sentence-ending punctuation of the regex class `[.!?]`. -/
def isSentEnd (c : Char) : Bool :=
  c = '.' || c = '!' || c = '?'

/-- Python `str.strip()` on the character list. -/
def pyStripList (l : List Char) : List Char :=
  ((l.dropWhile isPySpace).reverse.dropWhile isPySpace).reverse

/-- Python `str.strip()`. -/
def pyStrip (s : String) : String :=
  ⟨pyStripList s.data⟩

/-- One pass of `re.sub(r"[*_#]+", " ", ...)` (plus backquote): a maximal
run of markdown characters becomes a single space.  The boolean records
whether the previous character belonged to such a run. -/
def collapseJunkAux : Bool → List Char → List Char
  | _, [] => []
  | inRun, c :: cs =>
    if isMarkdownJunk c then
      if inRun then collapseJunkAux true cs
      else ' ' :: collapseJunkAux true cs
    else c :: collapseJunkAux false cs

/-- One pass of `re.sub(r"\s+", " ", ...)`: a maximal whitespace run
becomes a single space. -/
def collapseWsAux : Bool → List Char → List Char
  | _, [] => []
  | inRun, c :: cs =>
    if isPySpace c then
      if inRun then collapseWsAux true cs
      else ' ' :: collapseWsAux true cs
    else c :: collapseWsAux false cs

/-- Embeds `VisionAssistant._normalize_for_speech`: replace newlines with
spaces, collapse markdown-character runs to one space, collapse whitespace
runs to one space, then strip. -/
def normalizeForSpeech (s : String) : String :=
  let l1 := s.data.map (fun c => if c = '\n' then ' ' else c)
  let l2 := collapseJunkAux false l1
  let l3 := collapseWsAux false l2
  ⟨pyStripList l3⟩

/-- Embeds `re.split(r'(?<=[.!?])\s+', text)`.  `splitSentGo` scans the
text accumulating the current part in reverse; a whitespace character whose
predecessor is sentence-ending punctuation closes the part, after which
`splitSentSkip` consumes the rest of the (greedy `\s+`) whitespace run. -/
def splitSentGo (cur : List Char) : List Char → List (List Char)
  | [] => [cur.reverse]
  | c :: cs =>
    if isPySpace c && (match cur with | p :: _ => isSentEnd p | [] => false) then
      cur.reverse :: splitSentSkip cs
    else
      splitSentGo (c :: cur) cs
where
  /-- Consume the remaining whitespace of a separator match; a match at the
  very end of the text contributes a final empty part, as `re.split` does. -/
  splitSentSkip : List Char → List (List Char)
    | [] => [[]]
    | c :: cs =>
      if isPySpace c then splitSentSkip cs
      else splitSentGo [c] cs

/-- The sentence parts of a normalised text: split at sentence boundaries,
strip each part, drop empty parts (the list comprehension
`[p.strip() for p in re.split(...) if p.strip()]`). -/
def sentenceParts (normalized : String) : List String :=
  ((splitSentGo [] normalized.data).map (fun p => (⟨pyStripList p⟩ : String))).filter
    (fun t => t ≠ "")

/-- Embeds `VisionAssistant._store_description_details`: the stored detail
sections together with the reset cursor index `-1`. -/
def storeDescriptionDetails (description : String) : List String × Int :=
  let normalized := normalizeForSpeech description
  let parts := sentenceParts normalized
  let parts := if parts = [] then
      [if normalized = "" then "No details available." else normalized]
    else parts
  (parts, -1)

/-- Embeds `VisionAssistant._build_summary`: the first two sentence parts
joined with a single space. -/
def buildSummary (description : String) : String :=
  let normalized := normalizeForSpeech description
  let parts := sentenceParts normalized
  if parts = [] then
    (if normalized = "" then "No description returned." else normalized)
  else
    String.intercalate " " (parts.take 2)

/-! ## Detail cursor

Embeds `VisionAssistant._navigate_detail` (the part under `_state_lock`):
given the stored sections and the current index, a step direction produces
the new index and the narrated message. -/

/-- Embeds the index update and message construction of
`VisionAssistant._navigate_detail`. -/
def navigateDetail (details : List String) (index : Int) (step : Int) :
    Int × String :=
  if details.isEmpty then
    (index, "No details available yet. Press control plus M first.")
  else
    let newIndex : Int :=
      if index = -1 then (if 0 < step then 0 else (details.length : Int) - 1)
      else if 0 < step ∧ index < (details.length : Int) - 1 then index + 1
      else if step < 0 ∧ 0 < index then index - 1
      else index
    (newIndex,
      "Detail " ++ toString (newIndex + 1) ++ " of " ++ toString details.length
        ++ ". " ++ details.getD newIndex.toNat "")

/-! ## Speech pipeline

Embeds the module-level `speak` function and its nested backend helpers.
A single `speak` call is modelled as a deterministic function of an
environment of oracles: `stop` gives the value of the shared
`speak._stop_event` flag at each successive poll of it (polls are numbered
by a running counter), and `wave`, `cs`, `ps`, `py` give the outcome of the
n-th invocation of the corresponding external backend.  The busy-wait over
the rendered wave file is abstracted into the wave outcome (its polls only
decide whether playback is purged early, which does not change the return
value of `_speak_via_wave_file`).  The `interrupt` flag terminates a
narration process owned by a concurrent `speak` call, which is outside the
scope of a single-call model and therefore has no effect here. -/

/-- The four narration backends, in the order the source tries them. -/
inductive BackendCall
  | waveFile
  | cscript
  | powershell
  | pyttsx3
deriving DecidableEq, Repr

/-- Outcome of one wave-file synthesis attempt.  All errors inside
`_speak_via_wave_file` are caught, so the only failure mode is "caught
failure" (non-zero exit or exception), which makes the helper return
`False`. -/
inductive WaveOut
  | ok
  | err

/-- Outcome of one external-process backend attempt (`cscript` or
`powershell`): clean exit, non-zero exit, or an exception thrown while
spawning the process (uncaught in the source). -/
inductive ProcOut
  | ok
  | rcFail
  | spawnRaise

/-- Outcome of one `pyttsx3` engine invocation: `engine.say` and
`engine.runAndWait` either return or throw (uncaught in the source). -/
inductive PyOut
  | ok
  | raised

/-- Where an uncaught exception escaping `speak` originated. -/
inductive RaiseSrc
  | cscriptSpawn
  | powershellSpawn
  | pyttsx3Engine
deriving DecidableEq, Repr

/-- Oracles for one `speak` call. -/
structure SpeakEnv where
  stop : Nat → Bool
  wave : Nat → WaveOut
  cs : Nat → ProcOut
  ps : Nat → ProcOut
  py : Nat → PyOut

/-- Observable running state of a `speak` call: the poll counter, the
per-backend invocation counters, and the ordered trace of backend
invocations. -/
structure SpRun where
  polls : Nat
  waveN : Nat
  csN : Nat
  psN : Nat
  pyN : Nat
  calls : List BackendCall
deriving DecidableEq, Repr

/-- Initial running state. -/
def spInit : SpRun := ⟨0, 0, 0, 0, 0, []⟩

/-- Poll `speak._stop_event.is_set()` once. -/
def spPoll (env : SpeakEnv) (r : SpRun) : Bool × SpRun :=
  (env.stop r.polls, { r with polls := r.polls + 1 })

/-- Embeds `_speak_via_wave_file`: entry suppression check, one PowerShell
wave-synthesis invocation (all errors caught, returning `False`), then a
suppression check and the playback, which always ends with `True`. -/
def waveAttempt (env : SpeakEnv) (r : SpRun) : Bool × SpRun :=
  let (s, r) := spPoll env r
  if s then (true, r)
  else
    let o := env.wave r.waveN
    let r := { r with waveN := r.waveN + 1, calls := r.calls ++ [BackendCall.waveFile] }
    match o with
    | WaveOut.err => (false, r)
    | WaveOut.ok =>
      let (_, r) := spPoll env r
      (true, r)

/-- Embeds `_speak_via_cscript`: entry suppression check, spawn (an
exception here is uncaught), `communicate`, post-playback suppression check
(interruption counts as success), then the return-code check. -/
def cscriptAttempt (env : SpeakEnv) (r : SpRun) :
    Except RaiseSrc (Bool × SpRun) :=
  let (s, r) := spPoll env r
  if s then Except.ok (true, r)
  else
    match env.cs r.csN with
    | ProcOut.spawnRaise => Except.error RaiseSrc.cscriptSpawn
    | ProcOut.rcFail =>
      let r := { r with csN := r.csN + 1, calls := r.calls ++ [BackendCall.cscript] }
      let (s2, r) := spPoll env r
      if s2 then Except.ok (true, r) else Except.ok (false, r)
    | ProcOut.ok =>
      let r := { r with csN := r.csN + 1, calls := r.calls ++ [BackendCall.cscript] }
      let (_, r) := spPoll env r
      Except.ok (true, r)

/-- Embeds `_speak_via_pyttsx3`: entry suppression check, then the
in-process engine call; a thrown error is uncaught. -/
def pyttsxAttempt (env : SpeakEnv) (r : SpRun) : Except RaiseSrc SpRun :=
  let (s, r) := spPoll env r
  if s then Except.ok r
  else
    match env.py r.pyN with
    | PyOut.raised => Except.error RaiseSrc.pyttsx3Engine
    | PyOut.ok =>
      Except.ok { r with pyN := r.pyN + 1, calls := r.calls ++ [BackendCall.pyttsx3] }

/-- Embeds `_speak_via_powershell`: entry suppression check, spawn (an
exception here is uncaught), `communicate`, post-playback suppression check
(interruption returns without the fallback), then on non-zero exit the
`pyttsx3` fallback. -/
def powershellAttempt (env : SpeakEnv) (r : SpRun) : Except RaiseSrc SpRun :=
  let (s, r) := spPoll env r
  if s then Except.ok r
  else
    match env.ps r.psN with
    | ProcOut.spawnRaise => Except.error RaiseSrc.powershellSpawn
    | ProcOut.rcFail =>
      let r := { r with psN := r.psN + 1, calls := r.calls ++ [BackendCall.powershell] }
      let (s2, r) := spPoll env r
      if s2 then Except.ok r
      else pyttsxAttempt env r
    | ProcOut.ok =>
      let r := { r with psN := r.psN + 1, calls := r.calls ++ [BackendCall.powershell] }
      let (_, r) := spPoll env r
      Except.ok r

/-- One iteration of the repeat loop in `speak`: the iteration-head
suppression check, then wave file, cscript and powershell in order with a
suppression check between consecutive backends.  The boolean is `true` when
the iteration hit a `break`. -/
def speakIter (env : SpeakEnv) (r : SpRun) : Except RaiseSrc (SpRun × Bool) :=
  let (s, r) := spPoll env r
  if s then Except.ok (r, true)
  else
    let (b, r) := waveAttempt env r
    if b then Except.ok (r, false)
    else
      let (s, r) := spPoll env r
      if s then Except.ok (r, true)
      else
        match cscriptAttempt env r with
        | Except.error e => Except.error e
        | Except.ok (b, r) =>
          if b then Except.ok (r, false)
          else
            let (s, r) := spPoll env r
            if s then Except.ok (r, true)
            else
              match powershellAttempt env r with
              | Except.error e => Except.error e
              | Except.ok r => Except.ok (r, false)

/-- The repeat loop `for _ in range(max(1, repeat))`. -/
def speakLoop (env : SpeakEnv) : Nat → SpRun → Except RaiseSrc SpRun
  | 0, r => Except.ok r
  | n + 1, r =>
    match speakIter env r with
    | Except.error e => Except.error e
    | Except.ok (r, true) => Except.ok r
    | Except.ok (r, false) => speakLoop env n r

/-- Embeds the module-level `speak` function: the entry suppression check
followed by the repeat loop.  The `text` and `interrupt` arguments do not
influence the control flow of a single call (`interrupt` only terminates a
process owned by a concurrent call). -/
def speak (env : SpeakEnv) (_text : String) (_interrupt : Bool)
    (repeatCount : Int) : Except RaiseSrc SpRun :=
  let r := spInit
  let (s, r) := spPoll env r
  if s then Except.ok r
  else speakLoop env (max 1 repeatCount).toNat r

/-- Environment in which suppression is never requested, the first three
backends fail deterministically in their handled modes (wave synthesis
error, non-zero exit for cscript and powershell) and the in-process engine
succeeds. -/
def envFail13 : SpeakEnv :=
  ⟨fun _ => false, fun _ => WaveOut.err, fun _ => ProcOut.rcFail,
    fun _ => ProcOut.rcFail, fun _ => PyOut.ok⟩

/-- Like `envFail13` but the in-process engine also fails (throws). -/
def envFailAll : SpeakEnv :=
  ⟨fun _ => false, fun _ => WaveOut.err, fun _ => ProcOut.rcFail,
    fun _ => ProcOut.rcFail, fun _ => PyOut.raised⟩

/-- The backend trace of one repeat iteration in which backends 1 to 3 fail
in their handled modes. -/
def fourCalls : List BackendCall :=
  [BackendCall.waveFile, BackendCall.cscript, BackendCall.powershell, BackendCall.pyttsx3]

/-! ## Transcription watchdog

Embeds `transcribe_from_microphone`.  One attempt spawns a PowerShell
recognition process and then busy-waits: the loop condition is
`proc.poll() is None`, and each iteration checks the cancel event, the
submit (stop) event and a hard deadline of `max(timeout_seconds + 5, 12)`
seconds counted from just before the loop.  Each iteration sleeps, so the
wall clock advances by at least one tick per iteration; the `now` oracle
gives the clock value read by iteration `i`, and `t0` is the clock value at
which the deadline was computed. -/

/-- Oracles for one transcription attempt. -/
structure TransEnv where
  t0 : Nat
  now : Nat → Nat
  exited : Nat → Bool
  cancel : Nat → Bool
  stop : Nat → Bool
  stopAfter : Bool
  rcOk : Bool
  stdoutText : String

/-- How the busy-wait loop of `transcribe_from_microphone` ended.  The
`canceled`, `stopped` and `timedOut` exits all terminate the subprocess and
make the attempt return `None`. -/
inductive TransExit
  | procExited
  | canceled
  | stopped
  | timedOut
deriving DecidableEq, Repr

/-- The busy-wait loop, with explicit fuel: `none` means the fuel was
exhausted before the loop finished (used to prove the loop always finishes
within a bounded number of iterations). -/
def transLoop (env : TransEnv) (deadline : Nat) : Nat → Nat → Option TransExit
  | 0, _ => none
  | fuel + 1, i =>
    if env.exited i then some TransExit.procExited
    else if env.cancel i then some TransExit.canceled
    else if env.stop i then some TransExit.stopped
    else if deadline < env.now i then some TransExit.timedOut
    else transLoop env deadline fuel (i + 1)

/-- The hard internal deadline of one transcription attempt, computed just
before the busy-wait loop: `deadline = time.time() + max(timeout_seconds + 5, 12)`. -/
def transDeadline (env : TransEnv) (timeoutSeconds : Nat) : Nat :=
  env.t0 + max (timeoutSeconds + 5) 12

/-- Embeds the result computation of `transcribe_from_microphone` after the
busy-wait loop: on the cancel, submit or deadline exits the process was
terminated and the attempt returns `None`; otherwise `communicate` runs,
a set submit event still yields `None`, a non-zero exit yields `None`, and
an empty stripped transcript yields `None`. -/
def transcribeFromMicrophone (env : TransEnv) (timeoutSeconds : Nat)
    (fuel : Nat) : Option (TransExit × Option String) :=
  match transLoop env (transDeadline env timeoutSeconds) fuel 0 with
  | none => none
  | some TransExit.canceled => some (TransExit.canceled, none)
  | some TransExit.stopped => some (TransExit.stopped, none)
  | some TransExit.timedOut => some (TransExit.timedOut, none)
  | some TransExit.procExited =>
    some (TransExit.procExited,
      if env.stopAfter then none
      else if env.rcOk then
        (let t := pyStrip env.stdoutText
         if t = "" then none else some t)
      else none)

/-! ## Dictation recorder

Embeds `VisionAssistant._record_follow_up_question`.  Each pass of the
recording loop reads the clock at the loop head, polls the cancel and
submit events before the chunk, runs one bounded transcription attempt, and
polls the two events again after it; the oracle for one pass packages these
observations.  Elapsed time is in whole seconds (`int(time.time() -
started_at)`). -/

/-- Observations consumed by one pass of the recording loop. -/
structure RecRound where
  elapsed : Nat
  cancelBefore : Bool
  submitBefore : Bool
  chunk : Option String
  cancelAfter : Bool
  submitAfter : Bool

/-- Which exit of `_record_follow_up_question` fired. -/
inductive RecExit
  | canceled
  | submitted
  | timedOut
deriving DecidableEq, Repr

/-- Joining the accumulated chunks after loop exit: `None` when nothing was
accumulated, otherwise the chunks joined with single spaces. -/
def recFinalize (chunks : List String) : Option String :=
  if chunks.isEmpty then none else some (String.intercalate " " chunks)

/-- The recording loop.  `none` means the oracle trace ended before the
loop did (the run is then undetermined); otherwise the result, the exit
that produced it, and the number of transcription attempts made. -/
def recordGo (maxS : Nat) : List RecRound → List String → Nat →
    Option (Option String × RecExit × Nat)
  | [], _, _ => none
  | rd :: rest, chunks, attempts =>
    if maxS ≤ rd.elapsed then some (recFinalize chunks, RecExit.timedOut, attempts)
    else if rd.cancelBefore then some (none, RecExit.canceled, attempts)
    else if rd.submitBefore then some (recFinalize chunks, RecExit.submitted, attempts)
    else
      let attempts := attempts + 1
      if rd.cancelAfter then some (none, RecExit.canceled, attempts)
      else
        let chunks :=
          match rd.chunk with
          | some c => (let t := pyStrip c; if t = "" then chunks else chunks ++ [t])
          | none => chunks
        if rd.submitAfter then some (recFinalize chunks, RecExit.submitted, attempts)
        else recordGo maxS rest chunks attempts

/-- Embeds `_record_follow_up_question` from its initial state (empty
accumulator).  The per-chunk timeout `max(1, min(chunk_seconds,
remaining))` only parameterises the transcription attempt, whose result the
`chunk` field of each round already provides. -/
def recordFollowUp (maxS : Nat) (rounds : List RecRound) :
    Option (Option String × RecExit × Nat) :=
  recordGo maxS rounds [] 0

/-- The outcome of the follow-up handler after recording returns.  Embeds
the dispatch in `_handle_follow_up_query` directly after
`_record_follow_up_question`: a set cancel token takes priority, then an
absent transcript, then the answer path. -/
inductive FUOutcome
  | canceled
  | nothingHeard
  | answered (t : String)
deriving DecidableEq, Repr

/-- Embeds the post-recording dispatch of `_handle_follow_up_query`. -/
def followUpDispatch (cancelSet : Bool) (transcript : Option String) :
    FUOutcome :=
  if cancelSet then FUOutcome.canceled
  else
    match transcript with
    | none => FUOutcome.nothingHeard
    | some t => FUOutcome.answered t

/-! ## Orchestrator state machine

Embeds the hotkey handlers of `VisionAssistant` and the task-body cleanup
paths as a state machine.  The state comprises the single-flight gate
`_capture_lock` (held or free), the multiset of task sessions currently
running in background threads, `_active_task_name`, the cancel token
`_task_cancel_event`, the follow-up listening and submit events, and the
speech-suppression flag `speak._stop_event`.  The `running` list would only
exceed one element if a handler spawned a task without holding the gate, so
the single-flight property is a genuine invariant of the transition
relation, not a consequence of the state type.  `Ev.finish` is the
guaranteed `finally` block of the running task body, executed on every exit
path (completion, cancellation or error); `Ev.startListening` and
`Ev.stopListening` are the points inside `_handle_follow_up_query` that set
and clear `_follow_up_listening_event` around the recording phase.
`stop()` (shutdown) terminates the process and is outside the model. -/

/-- The kinds of gated task sessions. -/
inductive TaskName
  | capture
  | followUp
  | navigate
deriving DecidableEq, Repr

/-- How a task body ended; its `finally` block runs in every case. -/
inductive TaskOutcome
  | completed
  | canceled
  | errored
deriving DecidableEq, Repr

/-- Orchestrator state. -/
structure OrchState where
  gateHeld : Bool
  running : List TaskName
  activeTaskName : Option TaskName
  cancelSet : Bool
  listening : Bool
  submitSet : Bool
  suppressSet : Bool
deriving DecidableEq, Repr

/-- State at application start. -/
def initState : OrchState :=
  ⟨false, [], none, false, false, false, false⟩

/-- Events: the six hotkey callbacks relevant to the claims, the two
listening-phase transitions inside the follow-up body, and the completion
of the running task body. -/
inductive Ev
  | captureKey
  | followUpKey
  | nextDetailKey
  | prevDetailKey
  | stopSpeakKey
  | cancelKey
  | setApiKeyKey
  | startListening
  | stopListening
  | finish (o : TaskOutcome)
deriving DecidableEq, Repr

/-- User-visible outcome of dispatching one event. -/
inductive Out
  | granted (t : TaskName)
  | denied
  | submitSignaled
  | cue
deriving DecidableEq, Repr

/-- Embeds `_on_next_detail_hotkey` and `_on_previous_detail_hotkey`:
`stop_current_speech`, then a bounded `acquire` on `_capture_lock`; on
denial a rejection beep and no new thread; on admission
`clear_speech_stop_request` and the navigation thread is spawned.  The
cancel token is not touched and `_set_active_task` is not called. -/
def navDispatch (s : OrchState) : OrchState × Out :=
  if s.gateHeld then ({ s with suppressSet := true }, Out.denied)
  else
    ({ s with gateHeld := true, suppressSet := false,
              running := s.running ++ [TaskName.navigate] },
      Out.granted TaskName.navigate)

/-- One step of the orchestrator, mirroring each handler of the source. -/
def stepO (s : OrchState) : Ev → OrchState × Out
  | Ev.captureKey =>
    if s.gateHeld then ({ s with suppressSet := true }, Out.denied)
    else
      ({ s with gateHeld := true, suppressSet := false, cancelSet := false,
                activeTaskName := some TaskName.capture,
                running := s.running ++ [TaskName.capture] },
        Out.granted TaskName.capture)
  | Ev.followUpKey =>
    if s.listening then ({ s with submitSet := true }, Out.submitSignaled)
    else if s.gateHeld then ({ s with suppressSet := true }, Out.denied)
    else
      ({ s with gateHeld := true, suppressSet := false, cancelSet := false,
                activeTaskName := some TaskName.followUp, submitSet := false,
                running := s.running ++ [TaskName.followUp] },
        Out.granted TaskName.followUp)
  | Ev.nextDetailKey => navDispatch s
  | Ev.prevDetailKey => navDispatch s
  | Ev.stopSpeakKey => ({ s with suppressSet := true }, Out.cue)
  | Ev.cancelKey =>
    ({ s with cancelSet := true, submitSet := true, listening := false,
              suppressSet := true }, Out.cue)
  | Ev.setApiKeyKey => ({ s with suppressSet := false }, Out.cue)
  | Ev.startListening =>
    if s.running = [TaskName.followUp] then
      ({ s with submitSet := false, listening := true }, Out.cue)
    else (s, Out.cue)
  | Ev.stopListening => ({ s with listening := false }, Out.cue)
  | Ev.finish _ =>
    match s.running with
    | [] => (s, Out.cue)
    | t :: rest =>
      ({ s with gateHeld := false, running := rest,
                activeTaskName :=
                  if t = TaskName.navigate then s.activeTaskName else none,
                listening := if t = TaskName.followUp then false else s.listening,
                submitSet := if t = TaskName.followUp then false else s.submitSet },
        Out.cue)

/-- Run a sequence of events. -/
def runO (s : OrchState) : List Ev → OrchState
  | [] => s
  | e :: evs => runO (stepO s e).1 evs

/-- The inductive invariant of the orchestrator: at most one session runs,
the gate is held exactly while a session runs, and the listening flag is
only set while the follow-up session runs. -/
def OrchInv (s : OrchState) : Prop :=
  s.running.length ≤ 1 ∧ (s.gateHeld = true ↔ s.running ≠ []) ∧
    (s.listening = true → s.running = [TaskName.followUp])

/-! ## Claims -/

/-- C8: detail cursor stepping policy.  For every non-empty loaded section
list: from index `-1` a step of `+1` lands on index `0` and a step of `-1`
on the last index; the index clamps at both ends, re-reading the boundary
section rather than wrapping; any step from an in-range index stays in
range (never negative, never out of bounds); and every load
(`_store_description_details`) resets the index to `-1`. -/
theorem detail_cursor_stepping (details : List String) (h : details ≠ []) :
    (navigateDetail details (-1) 1).1 = 0
  ∧ (navigateDetail details (-1) (-1)).1 = (details.length : Int) - 1
  ∧ navigateDetail details ((details.length : Int) - 1) 1
      = ((details.length : Int) - 1,
          "Detail " ++ toString ((details.length : Int) - 1 + 1) ++ " of "
            ++ toString details.length ++ ". " ++ details.getD (details.length - 1) "")
  ∧ navigateDetail details 0 (-1)
      = (0, "Detail " ++ toString ((0 : Int) + 1) ++ " of "
            ++ toString details.length ++ ". " ++ details.getD 0 "")
  ∧ (∀ i st : Int, -1 ≤ i → i ≤ (details.length : Int) - 1 →
        0 ≤ (navigateDetail details i st).1
      ∧ (navigateDetail details i st).1 ≤ (details.length : Int) - 1)
  ∧ (∀ d : String, (storeDescriptionDetails d).2 = -1) := by
  have hne : details.isEmpty = false := by
    cases details with
    | nil => exact absurd rfl h
    | cons a l => rfl
  have hlen : 1 ≤ (details.length : Int) := by
    have hl : details.length ≠ 0 := fun hl => h (List.length_eq_zero.mp hl)
    omega
  refine ⟨?_, ?_, ?_, ?_, ?_, ?_⟩
  · simp [navigateDetail, hne]
  · simp [navigateDetail, hne]
  · simp only [navigateDetail, hne, Bool.false_eq_true, if_false]
    have h1 : ¬ ((details.length : Int) - 1 = -1) := by omega
    have h2 : ¬ ((0 : Int) < 1 ∧ (details.length : Int) - 1 < (details.length : Int) - 1) := by
      omega
    have h3 : ¬ ((1 : Int) < 0 ∧ (0 : Int) < (details.length : Int) - 1) := by omega
    simp only [h1, h2, h3, if_false]
    have h4 : ((details.length : Int) - 1).toNat = details.length - 1 := by omega
    rw [h4]
  · simp only [navigateDetail, hne, Bool.false_eq_true, if_false]
    have h1 : ¬ ((0 : Int) = -1) := by omega
    have h2 : ¬ ((0 : Int) < -1 ∧ (0 : Int) < (details.length : Int) - 1) := by omega
    have h3 : ¬ ((-1 : Int) < 0 ∧ (0 : Int) < (0 : Int)) := by omega
    simp only [h1, h2, h3, if_false]
    norm_num
  · intro i st hi1 hi2
    simp only [navigateDetail, hne, Bool.false_eq_true, if_false]
    by_cases hA : i = -1
    · simp only [hA, if_true]
      by_cases hB : (0 : Int) < st <;> simp [hB] <;> omega
    · simp only [hA, if_false]
      by_cases hB : (0 : Int) < st ∧ i < (details.length : Int) - 1
      · simp only [hB, if_true]; omega
      · simp only [hB, if_false]
        by_cases hC : st < 0 ∧ (0 : Int) < i
        · simp only [hC, if_true]; omega
        · simp only [hC, if_false]; omega
  · intro d
    simp [storeDescriptionDetails]

/-- Witness for C8 at the concrete section list `["a", "b", "c"]`: a first
step of `-1` from the fresh index lands on index `2`, a step of `-1` from
index `0` stays at `0` and re-reads the first section, and loading resets
the index. -/
theorem detail_cursor_stepping_witness :
    (navigateDetail ["a", "b", "c"] (-1) (-1)).1 = ((3 : Int) - 1)
  ∧ navigateDetail ["a", "b", "c"] 0 (-1) = (0, "Detail 1 of 3. a")
  ∧ (0 : Int) ≤ (navigateDetail ["a", "b", "c"] 0 (-1)).1
  ∧ (storeDescriptionDetails "x").2 = -1 := by
  have h := detail_cursor_stepping ["a", "b", "c"] (by decide)
  refine ⟨?_, ?_, ?_, h.2.2.2.2.2 "x"⟩
  · simpa using h.2.1
  · simpa using h.2.2.2.1
  · exact (h.2.2.2.2.1 0 (-1) (by omega) (by simp) ).1

/-- C9: end-to-end segmentation and summary.  Storing the model response
"First part. Second part. Third part." produces exactly the three sentence
sections with the cursor reset to `-1`; the summary is the first two
sections joined; three next-detail steps from the fresh index read sections
1, 2 and 3; and a further next-detail step clamps at section 3. -/
theorem end_to_end_segmentation_summary :
    storeDescriptionDetails "First part. Second part. Third part."
      = (["First part.", "Second part.", "Third part."], -1)
  ∧ buildSummary "First part. Second part. Third part." = "First part. Second part."
  ∧ navigateDetail ["First part.", "Second part.", "Third part."] (-1) 1
      = (0, "Detail 1 of 3. First part.")
  ∧ navigateDetail ["First part.", "Second part.", "Third part."] 0 1
      = (1, "Detail 2 of 3. Second part.")
  ∧ navigateDetail ["First part.", "Second part.", "Third part."] 1 1
      = (2, "Detail 3 of 3. Third part.")
  ∧ navigateDetail ["First part.", "Second part.", "Third part."] 2 1
      = (2, "Detail 3 of 3. Third part.") :=
  ⟨rfl, rfl, rfl, rfl, rfl, rfl⟩

/-- Helper for C10: if the wall clock advances by at least one unit per
poll iteration, then fuel `deadline + 1 - now i` suffices for the watchdog
loop to finish (by one of its four exits). -/
theorem transLoop_fuel (env : TransEnv) (deadline : Nat)
    (hmono : ∀ i, env.now i + 1 ≤ env.now (i + 1)) :
    ∀ fuel i, deadline + 1 ≤ env.now i + fuel →
      transLoop env deadline (fuel + 1) i ≠ none := by
  intro fuel
  induction fuel with
  | zero =>
    intro i hi
    simp only [transLoop]
    split
    · simp
    · split
      · simp
      · split
        · simp
        · have : deadline < env.now i := by omega
          simp [this, transLoop]
  | succ fuel ih =>
    intro i hi
    rw [transLoop]
    split
    · simp
    · split
      · simp
      · split
        · simp
        · split
          · simp
          · rename_i hdl
            have hnext := hmono i
            exact ih (i + 1) (by omega)

/-- Helper for C10: if the process is never observed exited, the loop never
produces the `procExited` exit. -/
theorem transLoop_not_exited (env : TransEnv) (deadline : Nat)
    (hex : ∀ i, env.exited i = false) :
    ∀ fuel i, transLoop env deadline fuel i ≠ some TransExit.procExited := by
  intro fuel
  induction fuel with
  | zero => intro i; simp [transLoop]
  | succ fuel ih =>
    intro i
    rw [transLoop]
    simp only [hex i, Bool.false_eq_true, if_false]
    split
    · simp
    · split
      · simp
      · split
        · simp
        · exact ih (i + 1)

/-- Helper for C10: with the process never exited and the cancel and submit
events never set, the loop ends in the `timedOut` exit once the clock
passes the deadline. -/
theorem transLoop_timeout (env : TransEnv) (deadline : Nat)
    (hmono : ∀ i, env.now i + 1 ≤ env.now (i + 1))
    (hex : ∀ i, env.exited i = false)
    (hca : ∀ i, env.cancel i = false)
    (hst : ∀ i, env.stop i = false) :
    ∀ fuel i, deadline + 1 ≤ env.now i + fuel →
      transLoop env deadline (fuel + 1) i = some TransExit.timedOut := by
  intro fuel
  induction fuel with
  | zero =>
    intro i hi
    have : deadline < env.now i := by omega
    simp [transLoop, hex i, hca i, hst i, this]
  | succ fuel ih =>
    intro i hi
    rw [transLoop]
    simp only [hex i, hca i, hst i, Bool.false_eq_true, if_false]
    split
    · rfl
    · rename_i hdl
      have hnext := hmono i
      exact ih (i + 1) (by omega)

/-- C10: transcription watchdog bound.  Each transcription attempt computes
the hard deadline `max(timeout_seconds + 5, 12)` seconds past the clock
value `t0` read before the busy-wait loop.  First conjunct: when the clock
advances by at least one unit per iteration, `max (timeoutSeconds + 5) 12 + 2`
loop iterations always suffice for the attempt to return (it never blocks
forever).  Second conjunct: whenever the external process is never observed
exited, any result the attempt produces carries transcript `none` and is
not the `procExited` exit (the other three exits all terminate the
process).  Third conjunct: with the process hung and no cancel or submit
request, the attempt ends exactly in the deadline exit, terminating the
process and returning `none`. -/
theorem transcription_watchdog_bound :
    (∀ (env : TransEnv) (timeoutSeconds : Nat),
        (∀ i, env.now i + 1 ≤ env.now (i + 1)) → env.t0 ≤ env.now 0 →
        transcribeFromMicrophone env timeoutSeconds
          (max (timeoutSeconds + 5) 12 + 2) ≠ none)
  ∧ (∀ (env : TransEnv) (timeoutSeconds fuel : Nat) (ex : TransExit)
        (res : Option String),
        (∀ i, env.exited i = false) →
        transcribeFromMicrophone env timeoutSeconds fuel = some (ex, res) →
        res = none ∧ ex ≠ TransExit.procExited)
  ∧ (∀ (env : TransEnv) (timeoutSeconds : Nat),
        (∀ i, env.now i + 1 ≤ env.now (i + 1)) → env.t0 ≤ env.now 0 →
        (∀ i, env.exited i = false) → (∀ i, env.cancel i = false) →
        (∀ i, env.stop i = false) →
        transcribeFromMicrophone env timeoutSeconds
          (max (timeoutSeconds + 5) 12 + 2)
          = some (TransExit.timedOut, none)) := by
  refine ⟨?_, ?_, ?_⟩
  · intro env t hmono h0
    have h2 : max (t + 5) 12 + 2 = (max (t + 5) 12 + 1) + 1 := by omega
    have hfuel := transLoop_fuel env (transDeadline env t) hmono
      (max (t + 5) 12 + 1) 0 (by simp only [transDeadline]; omega)
    rw [transcribeFromMicrophone, h2]
    cases h : transLoop env (transDeadline env t) (max (t + 5) 12 + 1 + 1) 0 with
    | none => exact absurd h hfuel
    | some e => cases e <;> simp
  · intro env t fuel ex res hex heq
    rw [transcribeFromMicrophone] at heq
    cases h : transLoop env (transDeadline env t) fuel 0 with
    | none => rw [h] at heq; exact absurd heq (by simp)
    | some e =>
      cases e with
      | procExited => exact absurd h (transLoop_not_exited env _ hex fuel 0)
      | canceled =>
        rw [h] at heq
        simp only [Option.some.injEq, Prod.mk.injEq] at heq
        refine ⟨heq.2.symm, ?_⟩
        rw [← heq.1]
        simp
      | stopped =>
        rw [h] at heq
        simp only [Option.some.injEq, Prod.mk.injEq] at heq
        refine ⟨heq.2.symm, ?_⟩
        rw [← heq.1]
        simp
      | timedOut =>
        rw [h] at heq
        simp only [Option.some.injEq, Prod.mk.injEq] at heq
        refine ⟨heq.2.symm, ?_⟩
        rw [← heq.1]
        simp
  · intro env t hmono h0 hex hca hst
    have h2 : max (t + 5) 12 + 2 = (max (t + 5) 12 + 1) + 1 := by omega
    have hto := transLoop_timeout env (transDeadline env t) hmono hex hca hst
      (max (t + 5) 12 + 1) 0 (by simp only [transDeadline]; omega)
    rw [transcribeFromMicrophone, h2, hto]

/-- Witness for C10: a hung process (never exits), a clock advancing one
unit per iteration, a timeout of 8 seconds.  The attempt returns within
`max (8 + 5) 12 + 2 = 15` iterations with the deadline exit and transcript
`none`. -/
theorem transcription_watchdog_bound_witness :
    transcribeFromMicrophone
        ⟨0, fun i => i, fun _ => false, fun _ => false, fun _ => false,
          false, true, "hello"⟩ 8 15
      = some (TransExit.timedOut, none)
  ∧ transcribeFromMicrophone
        ⟨0, fun i => i, fun _ => false, fun _ => false, fun _ => false,
          false, true, "hello"⟩ 8 15 ≠ none := by
  have h3 := transcription_watchdog_bound.2.2
    ⟨0, fun i => i, fun _ => false, fun _ => false, fun _ => false,
      false, true, "hello"⟩ 8
    (fun i => Nat.le_refl (i + 1)) (Nat.le_refl 0)
    (fun _ => rfl) (fun _ => rfl) (fun _ => rfl)
  have h1 := transcription_watchdog_bound.1
    ⟨0, fun i => i, fun _ => false, fun _ => false, fun _ => false,
      false, true, "hello"⟩ 8
    (fun i => Nat.le_refl (i + 1)) (Nat.le_refl 0)
  exact ⟨h3, h1⟩

/-- Helper for C6: whenever the recording loop ends through a cancel
observation, the returned transcript is `none`, whatever was already
accumulated. -/
theorem recordGo_canceled_none (maxS : Nat) :
    ∀ (rounds : List RecRound) (chunks : List String) (attempts a : Nat)
      (res : Option String),
      recordGo maxS rounds chunks attempts = some (res, RecExit.canceled, a) →
      res = none := by
  intro rounds
  induction rounds with
  | nil =>
    intro chunks attempts a res h
    simp [recordGo] at h
  | cons rd rest ih =>
    intro chunks attempts a res h
    obtain ⟨el, cb, sb, ch, ca, sa⟩ := rd
    rw [recordGo] at h
    by_cases h1 : maxS ≤ el
    · simp [h1] at h
    · cases cb with
      | true =>
        simp [h1] at h
        exact h.1.symm
      | false =>
        cases sb with
        | true => simp [h1] at h
        | false =>
          cases ca with
          | true =>
            simp [h1] at h
            exact h.1.symm
          | false =>
            cases sa with
            | true => simp [h1] at h
            | false =>
              simp only [h1, if_false, Bool.false_eq_true] at h
              exact ih _ _ _ _ h

/-- Helper for C6: if every pass observes no cancel, no submit and an
empty transcription result, and some pass eventually sees the elapsed time
reach the maximum, the loop ends in the timeout exit with transcript
`none`. -/
theorem recordGo_quiet_timeout (maxS : Nat) :
    ∀ (rounds : List RecRound) (attempts : Nat),
      (∀ rd ∈ rounds, rd.cancelBefore = false ∧ rd.submitBefore = false
        ∧ rd.chunk = none ∧ rd.cancelAfter = false ∧ rd.submitAfter = false) →
      (∃ rd ∈ rounds, maxS ≤ rd.elapsed) →
      ∃ a, recordGo maxS rounds [] attempts = some (none, RecExit.timedOut, a) := by
  intro rounds
  induction rounds with
  | nil =>
    intro attempts hq hex
    simp at hex
  | cons rd rest ih =>
    intro attempts hq hex
    have hrd := hq rd (List.mem_cons_self rd rest)
    by_cases hel : maxS ≤ rd.elapsed
    · refine ⟨attempts, ?_⟩
      rw [recordGo]
      simp [hel, recFinalize]
    · have hrest : ∃ x ∈ rest, maxS ≤ x.elapsed := by
        rcases hex with ⟨x, hx, hxe⟩
        rcases List.mem_cons.mp hx with hxx | hxx
        · exact absurd (hxx ▸ hxe) hel
        · exact ⟨x, hxx, hxe⟩
      rcases ih (attempts + 1) (fun x hx => hq x (List.mem_cons_of_mem rd hx)) hrest
        with ⟨a, ha⟩
      refine ⟨a, ?_⟩
      rw [recordGo]
      simp only [hel, if_false, hrd.1, hrd.2.1, hrd.2.2.1, hrd.2.2.2.1,
        hrd.2.2.2.2, Bool.false_eq_true]
      exact ha

/-- C6: dictation cancellation outcome.  First conjunct: a cancel
observation at the head of a loop pass makes the recorder return `none`
through the cancel exit at once, ignoring the rest of the trace.  Second
conjunct: every run of the recorder that ends through the cancel exit
returns `none`.  Third conjunct: when every chunk attempt returns no
transcript and the maximum duration elapses, the recorder returns `none`
through the timeout exit.  Fourth conjunct: the follow-up handler maps the
canceled case and the nothing-heard case (both of which return `none` from
the recorder) to distinct outcomes, using the still-set cancel token to
tell them apart. -/
theorem dictation_cancellation_outcome :
    (∀ (maxS : Nat) (rd : RecRound) (rest : List RecRound)
        (chunks : List String) (attempts : Nat),
        rd.elapsed < maxS → rd.cancelBefore = true →
        recordGo maxS (rd :: rest) chunks attempts
          = some (none, RecExit.canceled, attempts))
  ∧ (∀ (maxS : Nat) (rounds : List RecRound) (res : Option String) (a : Nat),
        recordFollowUp maxS rounds = some (res, RecExit.canceled, a) →
        res = none)
  ∧ (∀ (maxS : Nat) (rounds : List RecRound),
        (∀ rd ∈ rounds, rd.cancelBefore = false ∧ rd.submitBefore = false
          ∧ rd.chunk = none ∧ rd.cancelAfter = false ∧ rd.submitAfter = false) →
        (∃ rd ∈ rounds, maxS ≤ rd.elapsed) →
        ∃ a, recordFollowUp maxS rounds = some (none, RecExit.timedOut, a))
  ∧ (followUpDispatch true none = FUOutcome.canceled
      ∧ followUpDispatch false none = FUOutcome.nothingHeard
      ∧ FUOutcome.canceled ≠ FUOutcome.nothingHeard) := by
  refine ⟨?_, ?_, ?_, rfl, rfl, by simp⟩
  · intro maxS rd rest chunks attempts hel hc
    rw [recordGo]
    simp [Nat.not_le.mpr hel, hc]
  · intro maxS rounds res a h
    exact recordGo_canceled_none maxS rounds [] 0 a res h
  · intro maxS rounds hq hex
    exact recordGo_quiet_timeout maxS rounds 0 hq hex

/-- Witness for C6: a trace whose first pass observes the cancel token set
returns `none` through the cancel exit, a quiet trace that reaches the
30-second ceiling returns `none` through the timeout exit, and the handler
outcomes differ. -/
theorem dictation_cancellation_outcome_witness :
    recordGo 30 [⟨0, true, false, none, false, false⟩] [] 0
      = some (none, RecExit.canceled, 0)
  ∧ (∃ a, recordFollowUp 30
        [⟨0, false, false, none, false, false⟩, ⟨30, false, false, none, false, false⟩]
        = some (none, RecExit.timedOut, a))
  ∧ followUpDispatch true none ≠ followUpDispatch false none := by
  have h1 := dictation_cancellation_outcome.1 30
    ⟨0, true, false, none, false, false⟩ [] [] 0 (by decide) rfl
  have h3 := dictation_cancellation_outcome.2.2.1 30
    [⟨0, false, false, none, false, false⟩, ⟨30, false, false, none, false, false⟩]
    (by intro rd hrd; fin_cases hrd <;> exact ⟨rfl, rfl, rfl, rfl, rfl⟩)
    ⟨⟨30, false, false, none, false, false⟩, by simp, by decide⟩
  have h4 := dictation_cancellation_outcome.2.2.2
  exact ⟨h1, h3, by rw [h4.1, h4.2.1]; exact h4.2.2⟩

/-- C7: dictation early-submit.  With at least one accumulated chunk, a
submit observation at the head of a loop pass (first conjunct) or right
after a chunk attempt (second conjunct, which also accumulates that final
non-empty chunk) stops the loop through the submit exit immediately — the
rest of the trace is never consulted, no further chunk attempt is made (the
attempt counter result is unchanged, respectively counts only the attempt
just finished) — and the recorder returns the accumulated chunks joined
with single spaces. -/
theorem dictation_early_submit :
    (∀ (maxS : Nat) (rd : RecRound) (rest : List RecRound)
        (chunks : List String) (attempts : Nat),
        chunks ≠ [] → rd.elapsed < maxS → rd.cancelBefore = false →
        rd.submitBefore = true →
        recordGo maxS (rd :: rest) chunks attempts
          = some (some (String.intercalate " " chunks), RecExit.submitted, attempts))
  ∧ (∀ (maxS : Nat) (rd : RecRound) (rest : List RecRound)
        (chunks : List String) (attempts : Nat) (c : String),
        rd.elapsed < maxS → rd.cancelBefore = false → rd.submitBefore = false →
        rd.cancelAfter = false → rd.chunk = some c → pyStrip c ≠ "" →
        rd.submitAfter = true →
        recordGo maxS (rd :: rest) chunks attempts
          = some (some (String.intercalate " " (chunks ++ [pyStrip c])),
              RecExit.submitted, attempts + 1)) := by
  constructor
  · intro maxS rd rest chunks attempts hne hel hc hs
    rw [recordGo]
    simp [Nat.not_le.mpr hel, hc, hs, recFinalize, hne]
  · intro maxS rd rest chunks attempts c hel hc hs hca hch hstr hsa
    rw [recordGo]
    simp [Nat.not_le.mpr hel, hc, hs, hca, hch, hstr, hsa, recFinalize]

/-- Witness for C7: with the chunk "alpha" already accumulated and the
submit signal observed at the head of the second pass, the recorder stops
after one attempt and returns "alpha" without consulting the rest of the
trace. -/
theorem dictation_early_submit_witness :
    recordGo 30 [⟨3, false, true, none, false, false⟩] ["alpha"] 1
      = some (some "alpha", RecExit.submitted, 1)
  ∧ recordGo 30 [⟨5, false, false, some " beta ", false, true⟩] ["alpha"] 1
      = some (some "alpha beta", RecExit.submitted, 2) := by
  have h1 := dictation_early_submit.1 30 ⟨3, false, true, none, false, false⟩ []
    ["alpha"] 1 (by simp) (by decide) rfl rfl
  have h2 := dictation_early_submit.2 30 ⟨5, false, false, some " beta ", false, true⟩ []
    ["alpha"] 1 " beta " (by decide) rfl rfl rfl rfl (by decide) rfl
  constructor
  · simpa using h1
  · have hb : pyStrip " beta " = "beta" := by decide
    rw [hb] at h2
    simpa using h2

/-- Helper for C3: in the environment where backends 1 to 3 fail in their
handled modes, one repeat iteration polls the suppression flag nine times,
invokes each backend once in the order wave file, cscript, powershell,
pyttsx3, and does not break. -/
theorem speakIter_envFail13 (r : SpRun) :
    speakIter envFail13 r
      = Except.ok (⟨r.polls + 9, r.waveN + 1, r.csN + 1, r.psN + 1, r.pyN + 1,
          r.calls ++ fourCalls⟩, false) := by
  simp [speakIter, waveAttempt, cscriptAttempt, powershellAttempt, pyttsxAttempt,
    spPoll, envFail13, fourCalls]

/-- Helper for C3: the repeat loop in the handled-failure environment runs
all its iterations, each contributing one ordered four-backend trace. -/
theorem speakLoop_envFail13 (n : Nat) :
    ∀ r : SpRun, speakLoop envFail13 n r
      = Except.ok ⟨r.polls + 9 * n, r.waveN + n, r.csN + n, r.psN + n, r.pyN + n,
          r.calls ++ (List.replicate n fourCalls).flatten⟩ := by
  induction n with
  | zero => intro r; simp [speakLoop]
  | succ n ih =>
    intro r
    rw [speakLoop, speakIter_envFail13]
    simp only []
    rw [ih]
    simp only [SpRun.mk.injEq, Except.ok.injEq]
    refine ⟨by omega, by omega, by omega, by omega, by omega, ?_⟩
    simp [List.replicate_succ, List.append_assoc]

/-- Helper for C3: the concatenated per-iteration traces contain exactly
one pyttsx3 invocation per iteration. -/
theorem fourCalls_flatten_count (m : Nat) :
    (List.replicate m fourCalls).flatten.count BackendCall.pyttsx3 = m := by
  induction m with
  | zero => simp
  | succ m ih =>
    rw [List.replicate_succ, List.flatten_cons, List.count_append, ih]
    have h4 : fourCalls.count BackendCall.pyttsx3 = 1 := by decide
    rw [h4]
    omega

/-- C3 (amended): speech fallback exhaustion for handled failures.  With
suppression inactive and backends 1 to 3 failing deterministically in their
handled modes (wave synthesis failure caught inside the helper, non-zero
exit for cscript and powershell) and the in-process engine succeeding, a
`speak` call with repeat count `n + 1` returns without raising, attempts
the backends in the fixed priority order wave file, cscript, powershell,
pyttsx3 within every repeat iteration, and invokes pyttsx3 exactly once per
repeat iteration.  (The original claim that `speak` never raises even when
every backend fails is refuted by `speak_raises_counterexample`: an
exception thrown by the in-process pyttsx3 engine, or while spawning the
cscript or powershell process, propagates to the caller.) -/
theorem speak_fallback_exhaustion (n : Nat) :
    speak envFail13 "summary" false ((n : Int) + 1)
      = Except.ok ⟨1 + 9 * (n + 1), n + 1, n + 1, n + 1, n + 1,
          (List.replicate (n + 1) fourCalls).flatten⟩
  ∧ (List.replicate (n + 1) fourCalls).flatten.count BackendCall.pyttsx3 = n + 1 := by
  constructor
  · have hmax : (max 1 ((n : Int) + 1)).toNat = n + 1 := by
      rw [max_eq_right (by omega : (1 : Int) ≤ (n : Int) + 1)]
      omega
    rw [speak]
    have hstop : envFail13.stop (spInit.polls) = false := rfl
    simp only [spPoll, hstop, Bool.false_eq_true, if_false]
    rw [hmax, speakLoop_envFail13]
    simp only [spInit, SpRun.mk.injEq, Except.ok.injEq, List.nil_append]
    refine ⟨trivial, by omega, by omega, by omega, by omega, trivial⟩
  · exact fourCalls_flatten_count (n + 1)

/-- Counterexample for C3: with suppression inactive, all four backends
failing — wave synthesis failure, non-zero exits for cscript and
powershell, and the in-process pyttsx3 engine throwing — the `speak` call
raises (the pyttsx3 exception propagates out of `_speak_via_powershell`
and out of `speak`, which has no handler), refuting "the speak call itself
never raises even when every backend fails". -/
theorem speak_raises_counterexample :
    speak envFailAll "" false 1 = Except.error RaiseSrc.pyttsx3Engine := rfl

/-- C4: suppression no-op.  First conjunct: if the suppression flag is
observed set at the entry poll of `speak`, the call returns at once having
made exactly that one poll and no backend invocation.  Second conjunct: if
the suppression flag is observed set at the iteration-head poll of the
repeat loop, the loop breaks immediately — however many repeats remain, no
further backend is invoked and the state is unchanged apart from that one
poll. -/
theorem speak_suppression_noop :
    (∀ (env : SpeakEnv) (t : String) (intr : Bool) (rc : Int),
        env.stop 0 = true → speak env t intr rc = Except.ok ⟨1, 0, 0, 0, 0, []⟩)
  ∧ (∀ (env : SpeakEnv) (n : Nat) (r : SpRun),
        env.stop r.polls = true →
        speakLoop env (n + 1) r = Except.ok { r with polls := r.polls + 1 }) := by
  constructor
  · intro env t intr rc h
    have h0 : env.stop (spInit.polls) = true := h
    simp [speak, spPoll, spInit, h0]
    intro hf
    rw [h] at hf
    simp at hf
  · intro env n r h
    simp [speakLoop, speakIter, spPoll, h]

/-- Witness for C4: a concrete environment whose suppression flag is set
throughout; a `speak` call with repeat count 3 is a silent no-op, and the
repeat loop with 2 iterations breaks at its first head poll. -/
theorem speak_suppression_noop_witness :
    speak ⟨fun _ => true, fun _ => WaveOut.ok, fun _ => ProcOut.ok,
        fun _ => ProcOut.ok, fun _ => PyOut.ok⟩ "hello" false 3
      = Except.ok ⟨1, 0, 0, 0, 0, []⟩
  ∧ speakLoop ⟨fun _ => true, fun _ => WaveOut.ok, fun _ => ProcOut.ok,
        fun _ => ProcOut.ok, fun _ => PyOut.ok⟩ 2 spInit
      = Except.ok { spInit with polls := spInit.polls + 1 } := by
  have h := speak_suppression_noop
  exact ⟨h.1 _ "hello" false 3 rfl, h.2 _ 1 spInit rfl⟩

/-- Helper: under the invariant, a free gate means no session is running. -/
theorem gate_free_running_nil (s : OrchState) (h : OrchInv s)
    (hg : s.gateHeld = false) : s.running = [] := by
  by_contra hne
  have hgt := h.2.1.mpr hne
  rw [hg] at hgt
  exact absurd hgt (by simp)

/-- Helper: under the invariant, no running session means the listening
flag is clear. -/
theorem running_nil_not_listening (s : OrchState) (h : OrchInv s)
    (hr : s.running = []) : s.listening = false := by
  cases hl : s.listening
  · rfl
  · have hfu := h.2.2 hl
    rw [hr] at hfu
    exact absurd hfu (by simp)

/-- Helper: every orchestrator event preserves the invariant. -/
theorem orchInv_step (s : OrchState) (e : Ev) (h : OrchInv s) :
    OrchInv (stepO s e).1 := by
  obtain ⟨g, run, act, c, li, sub, sup⟩ := s
  obtain ⟨h1, h2, h3⟩ := h
  simp only at h1 h2 h3
  cases e with
  | captureKey =>
    cases g with
    | true => exact ⟨h1, h2, h3⟩
    | false =>
      have hr : run = [] := by
        rcases List.eq_nil_or_concat run with hnil | ⟨l, a, rfl⟩
        · exact hnil
        · exact absurd (h2.mpr (by simp)) (by simp)
      subst hr
      cases li with
      | true => exact absurd (h3 rfl) (by simp)
      | false => exact ⟨by simp [stepO, navDispatch], by simp [stepO, navDispatch], by simp [stepO, navDispatch]⟩
  | followUpKey =>
    cases li with
    | true => exact ⟨h1, h2, fun _ => h3 rfl⟩
    | false =>
      cases g with
      | true => exact ⟨h1, h2, by simp [stepO]⟩
      | false =>
        have hr : run = [] := by
          rcases List.eq_nil_or_concat run with hnil | ⟨l, a, rfl⟩
          · exact hnil
          · exact absurd (h2.mpr (by simp)) (by simp)
        subst hr
        exact ⟨by simp [stepO, navDispatch], by simp [stepO, navDispatch], by simp [stepO, navDispatch]⟩
  | nextDetailKey =>
    cases g with
    | true => exact ⟨h1, h2, h3⟩
    | false =>
      have hr : run = [] := by
        rcases List.eq_nil_or_concat run with hnil | ⟨l, a, rfl⟩
        · exact hnil
        · exact absurd (h2.mpr (by simp)) (by simp)
      subst hr
      cases li with
      | true => exact absurd (h3 rfl) (by simp)
      | false => exact ⟨by simp [stepO, navDispatch], by simp [stepO, navDispatch], by simp [stepO, navDispatch]⟩
  | prevDetailKey =>
    cases g with
    | true => exact ⟨h1, h2, h3⟩
    | false =>
      have hr : run = [] := by
        rcases List.eq_nil_or_concat run with hnil | ⟨l, a, rfl⟩
        · exact hnil
        · exact absurd (h2.mpr (by simp)) (by simp)
      subst hr
      cases li with
      | true => exact absurd (h3 rfl) (by simp)
      | false => exact ⟨by simp [stepO, navDispatch], by simp [stepO, navDispatch], by simp [stepO, navDispatch]⟩
  | stopSpeakKey => exact ⟨h1, h2, h3⟩
  | cancelKey => exact ⟨h1, h2, by simp [stepO]⟩
  | setApiKeyKey => exact ⟨h1, h2, h3⟩
  | startListening =>
    by_cases hf : run = [TaskName.followUp]
    · subst hf
      refine ⟨by simp [stepO], ?_, by simp [stepO]⟩
      simp only [stepO, if_pos rfl]
      simpa using h2
    · have hstep : stepO ⟨g, run, act, c, li, sub, sup⟩ Ev.startListening
          = (⟨g, run, act, c, li, sub, sup⟩, Out.cue) := by
        simp only [stepO]
        rw [if_neg (by simpa using hf)]
      rw [hstep]
      exact ⟨h1, h2, h3⟩
  | stopListening => exact ⟨h1, h2, by simp [stepO]⟩
  | finish o =>
    cases run with
    | nil => exact ⟨h1, h2, h3⟩
    | cons t rest =>
      have hrest : rest = [] := by
        have : rest.length = 0 := by
          simp only [List.length_cons] at h1
          omega
        exact List.length_eq_zero.mp this
      subst hrest
      cases t with
      | capture =>
        cases li with
        | true => exact absurd (h3 rfl) (by simp)
        | false => exact ⟨by simp [stepO, navDispatch], by simp [stepO, navDispatch], by simp [stepO, navDispatch]⟩
      | navigate =>
        cases li with
        | true => exact absurd (h3 rfl) (by simp)
        | false => exact ⟨by simp [stepO, navDispatch], by simp [stepO, navDispatch], by simp [stepO, navDispatch]⟩
      | followUp =>
        exact ⟨by simp [stepO, navDispatch], by simp [stepO, navDispatch], by simp [stepO, navDispatch]⟩

/-- Helper: the invariant holds at application start. -/
theorem orchInv_init : OrchInv initState :=
  ⟨by simp [initState], by simp [initState], by simp [initState]⟩

/-- Helper: the invariant holds along every event sequence. -/
theorem orchInv_run (s : OrchState) (evs : List Ev) (h : OrchInv s) :
    OrchInv (runO s evs) := by
  induction evs generalizing s with
  | nil => exact h
  | cons e evs ih => exact ih _ (orchInv_step s e h)

/-- C1 (amended): single-flight admission.  First conjunct: along every
event sequence at most one task session is running at any instant.  Second
conjunct: a capture or navigation trigger arriving while the gate is held
is denied (rejection cue, no new background task); a follow-up trigger
while the gate is held is denied in the same way when the follow-up
listener is not active, and when the listener is active it instead only
signals early submit — again starting no new background task.  Third
conjunct: the `finally` block of the running task body releases the gate on
every exit path (completion, cancellation or error).  (The original claim
that every follow-up trigger arriving while the gate is held is denied is
refuted by `single_flight_counterexample`: the second press of the
follow-up hotkey during recording is the stop-recording toggle, not a
denied admission.) -/
theorem single_flight_admission :
    (∀ evs : List Ev, (runO initState evs).running.length ≤ 1)
  ∧ (∀ s : OrchState, s.gateHeld = true →
        (stepO s Ev.captureKey).2 = Out.denied
      ∧ (stepO s Ev.captureKey).1.running = s.running
      ∧ (stepO s Ev.nextDetailKey).2 = Out.denied
      ∧ (stepO s Ev.nextDetailKey).1.running = s.running
      ∧ (stepO s Ev.prevDetailKey).2 = Out.denied
      ∧ (stepO s Ev.prevDetailKey).1.running = s.running
      ∧ (s.listening = false → (stepO s Ev.followUpKey).2 = Out.denied
            ∧ (stepO s Ev.followUpKey).1.running = s.running)
      ∧ (s.listening = true → (stepO s Ev.followUpKey).2 = Out.submitSignaled
            ∧ (stepO s Ev.followUpKey).1.running = s.running))
  ∧ (∀ (evs : List Ev) (o : TaskOutcome),
        (stepO (runO initState evs) (Ev.finish o)).1.gateHeld = false) := by
  refine ⟨?_, ?_, ?_⟩
  · intro evs
    exact (orchInv_run initState evs orchInv_init).1
  · intro s hg
    exact ⟨by simp [stepO, hg], by simp [stepO, hg],
      by simp [stepO, navDispatch, hg], by simp [stepO, navDispatch, hg],
      by simp [stepO, navDispatch, hg], by simp [stepO, navDispatch, hg],
      fun hl => ⟨by simp [stepO, hg, hl], by simp [stepO, hg, hl]⟩,
      fun hl => ⟨by simp [stepO, hl], by simp [stepO, hl]⟩⟩
  · intro evs o
    have h := orchInv_run initState evs orchInv_init
    cases hr : (runO initState evs).running with
    | nil =>
      have hg : (runO initState evs).gateHeld = false := by
        cases hgb : (runO initState evs).gateHeld
        · rfl
        · exact absurd (h.2.1.mp hgb) (by simp [hr])
      simp [stepO, hr, hg]
    | cons t rest => simp [stepO, hr]

/-- Witness for C1: after one admitted capture trigger the gate is held;
a second capture trigger is denied and a navigation trigger leaves the
running sessions unchanged; the finish of the task body releases the gate
even on the error path. -/
theorem single_flight_admission_witness :
    (runO initState [Ev.captureKey]).running.length ≤ 1
  ∧ (stepO (runO initState [Ev.captureKey]) Ev.captureKey).2 = Out.denied
  ∧ (stepO (runO initState [Ev.captureKey]) Ev.nextDetailKey).1.running
      = (runO initState [Ev.captureKey]).running
  ∧ (stepO (runO initState [Ev.captureKey]) (Ev.finish TaskOutcome.errored)).1.gateHeld
      = false := by
  have h := single_flight_admission
  exact ⟨h.1 [Ev.captureKey],
    (h.2.1 (runO initState [Ev.captureKey]) (by decide)).1,
    (h.2.1 (runO initState [Ev.captureKey]) (by decide)).2.2.2.1,
    h.2.2 [Ev.captureKey] TaskOutcome.errored⟩

/-- Counterexample for C1 as stated: while the follow-up session is
recording (gate held, listener active), a further follow-up trigger is not
denied — it yields the early-submit outcome, not `denied`, and plays the
submit cue rather than the rejection cue.  No new session starts. -/
theorem single_flight_counterexample :
    (runO initState [Ev.followUpKey, Ev.startListening]).gateHeld = true
  ∧ (stepO (runO initState [Ev.followUpKey, Ev.startListening]) Ev.followUpKey).2
      = Out.submitSignaled
  ∧ Out.submitSignaled ≠ Out.denied
  ∧ (stepO (runO initState [Ev.followUpKey, Ev.startListening]) Ev.followUpKey).1.running
      = (runO initState [Ev.followUpKey, Ev.startListening]).running := by
  exact ⟨rfl, rfl, by decide, rfl⟩

/-- C2 (amended): cancellation stickiness.  First conjunct: while the
gate is held (a session is running), no event clears the cancel token, so
once set it stays set for every subsequent poll of that session.  Second
conjunct: the multi-step version — along any event sequence during which
the gate stays held, a set token stays set.  Third conjunct: a capture or
follow-up admission clears the token before the task body starts.  Fourth
conjunct: the cleared token stays clear until the next cancel hotkey.
(The original claim that every fresh admission clears the token is refuted
by `cancel_clear_counterexample`: a navigation admission does not clear
it — the navigation task body never polls the token.) -/
theorem cancellation_stickiness :
    (∀ (s : OrchState) (e : Ev), s.gateHeld = true → s.cancelSet = true →
        (stepO s e).1.cancelSet = true)
  ∧ (∀ (s : OrchState) (evs : List Ev), s.cancelSet = true →
        (∀ k, k < evs.length → (runO s (evs.take k)).gateHeld = true) →
        (runO s evs).cancelSet = true)
  ∧ (∀ s : OrchState, s.gateHeld = false →
        (stepO s Ev.captureKey).1.cancelSet = false
      ∧ (s.listening = false → (stepO s Ev.followUpKey).1.cancelSet = false))
  ∧ (∀ (s : OrchState) (evs : List Ev), s.cancelSet = false →
        Ev.cancelKey ∉ evs → (runO s evs).cancelSet = false) := by
  have hstep : ∀ (s : OrchState) (e : Ev), s.gateHeld = true → s.cancelSet = true →
      (stepO s e).1.cancelSet = true := by
    intro s e hg hc
    cases e with
    | captureKey => simp [stepO, hg, hc]
    | followUpKey => cases hli : s.listening <;> simp [stepO, hg, hc, hli]
    | nextDetailKey => simp [stepO, navDispatch, hg, hc]
    | prevDetailKey => simp [stepO, navDispatch, hg, hc]
    | stopSpeakKey => simp [stepO, hc]
    | cancelKey => simp [stepO]
    | setApiKeyKey => simp [stepO, hc]
    | startListening =>
      by_cases hf : s.running = [TaskName.followUp] <;> simp [stepO, hf, hc]
    | stopListening => simp [stepO, hc]
    | finish o => cases hr : s.running <;> simp [stepO, hr, hc]
  have hquiet : ∀ (s : OrchState) (e : Ev), e ≠ Ev.cancelKey →
      s.cancelSet = false → (stepO s e).1.cancelSet = false := by
    intro s e hne hc
    cases e with
    | captureKey => cases hgb : s.gateHeld <;> simp [stepO, hgb, hc]
    | followUpKey =>
      cases hli : s.listening
      · cases hgb : s.gateHeld <;> simp [stepO, hgb, hc, hli]
      · simp [stepO, hli, hc]
    | nextDetailKey => cases hgb : s.gateHeld <;> simp [stepO, navDispatch, hgb, hc]
    | prevDetailKey => cases hgb : s.gateHeld <;> simp [stepO, navDispatch, hgb, hc]
    | stopSpeakKey => simp [stepO, hc]
    | cancelKey => exact absurd rfl hne
    | setApiKeyKey => simp [stepO, hc]
    | startListening =>
      by_cases hf : s.running = [TaskName.followUp] <;> simp [stepO, hf, hc]
    | stopListening => simp [stepO, hc]
    | finish o => cases hr : s.running <;> simp [stepO, hr, hc]
  refine ⟨hstep, ?_, ?_, ?_⟩
  · intro s evs
    induction evs generalizing s with
    | nil => intro hc _; exact hc
    | cons e rest ih =>
      intro hc hg
      have hg0 : s.gateHeld = true := by simpa using hg 0 (by simp)
      refine ih ((stepO s e).1) (hstep s e hg0 hc) ?_
      intro k hk
      have := hg (k + 1) (by simpa using Nat.succ_lt_succ hk)
      simpa [runO] using this
  · intro s hgf
    refine ⟨by simp [stepO, hgf], fun hl => by simp [stepO, hgf, hl]⟩
  · intro s evs
    induction evs generalizing s with
    | nil => intro hc _; exact hc
    | cons e rest ih =>
      intro hc hnot
      have he : e ≠ Ev.cancelKey := fun hh => hnot (hh ▸ List.mem_cons_self e rest)
      have hrest : Ev.cancelKey ∉ rest := fun hm => hnot (List.mem_cons_of_mem e hm)
      exact ih ((stepO s e).1) (hquiet s e he hc) hrest

/-- Witness for C2: after a capture admission followed by the cancel
hotkey, the token stays set across a stop-speech event and across a
two-event sequence during which the gate stays held; a fresh capture
admission from the initial state observes the token clear, and it stays
clear across a stop-speech event. -/
theorem cancellation_stickiness_witness :
    (stepO (runO initState [Ev.captureKey, Ev.cancelKey]) Ev.stopSpeakKey).1.cancelSet
      = true
  ∧ (runO (runO initState [Ev.captureKey, Ev.cancelKey])
        [Ev.stopSpeakKey, Ev.startListening]).cancelSet = true
  ∧ (stepO initState Ev.captureKey).1.cancelSet = false
  ∧ (runO (stepO initState Ev.captureKey).1 [Ev.stopSpeakKey]).cancelSet = false := by
  have h := cancellation_stickiness
  refine ⟨?_, ?_, ?_, ?_⟩
  · exact h.1 (runO initState [Ev.captureKey, Ev.cancelKey]) Ev.stopSpeakKey
      (by decide) (by decide)
  · refine h.2.1 (runO initState [Ev.captureKey, Ev.cancelKey])
      [Ev.stopSpeakKey, Ev.startListening] (by decide) ?_
    intro k hk
    have hk2 : k < 2 := by simpa using hk
    interval_cases k <;> decide
  · exact (h.2.2.1 initState (by decide)).1
  · exact h.2.2.2 (stepO initState Ev.captureKey).1 [Ev.stopSpeakKey]
      ((h.2.2.1 initState (by decide)).1) (by decide)

/-- Counterexample for C2 as stated: the cancel hotkey with no active
task leaves the token set; the next-detail trigger is then freshly
admitted as a navigation session with the token still set at the start of
the task body, because the navigation handlers never clear it. -/
theorem cancel_clear_counterexample :
    (runO initState [Ev.cancelKey, Ev.nextDetailKey]).running = [TaskName.navigate]
  ∧ (runO initState [Ev.cancelKey, Ev.nextDetailKey]).cancelSet = true := ⟨rfl, rfl⟩

/-- C5 (amended): stop-speech orthogonality, without auto-clear at
narration start.  First conjunct: the stop-speech hotkey leaves the cancel
token, the gate, the running sessions, the active-task name and the
follow-up flags untouched; it only sets the suppression flag.  Second
conjunct: a `speak` call that observes the suppression flag set returns at
once with no backend invocation — so the next narration after a stop-speech
is silent, not audible.  Third and fourth conjuncts: the suppression flag
is cleared by `clear_speech_stop_request` in the next trigger admission
(capture, navigation, or follow-up admission) and by the set-api-key
hotkey — these, not the beginning of a `speak` call, are the clearing
points.  (The original auto-clear-at-next-speak claim is refuted by
`stop_speech_autoclear_counterexample`.) -/
theorem stop_speech_orthogonality :
    (∀ s : OrchState,
        (stepO s Ev.stopSpeakKey).1.cancelSet = s.cancelSet
      ∧ (stepO s Ev.stopSpeakKey).1.gateHeld = s.gateHeld
      ∧ (stepO s Ev.stopSpeakKey).1.running = s.running
      ∧ (stepO s Ev.stopSpeakKey).1.activeTaskName = s.activeTaskName
      ∧ (stepO s Ev.stopSpeakKey).1.listening = s.listening
      ∧ (stepO s Ev.stopSpeakKey).1.submitSet = s.submitSet
      ∧ (stepO s Ev.stopSpeakKey).1.suppressSet = true)
  ∧ (∀ (env : SpeakEnv) (t : String) (intr : Bool) (rc : Int),
        env.stop 0 = true → speak env t intr rc = Except.ok ⟨1, 0, 0, 0, 0, []⟩)
  ∧ (∀ s : OrchState, s.gateHeld = false →
        (stepO s Ev.captureKey).1.suppressSet = false
      ∧ (stepO s Ev.nextDetailKey).1.suppressSet = false
      ∧ (stepO s Ev.prevDetailKey).1.suppressSet = false
      ∧ (s.listening = false → (stepO s Ev.followUpKey).1.suppressSet = false))
  ∧ (∀ s : OrchState, (stepO s Ev.setApiKeyKey).1.suppressSet = false) := by
  refine ⟨?_, ?_, ?_, ?_⟩
  · intro s
    exact ⟨rfl, rfl, rfl, rfl, rfl, rfl, rfl⟩
  · intro env t intr rc h
    have h0 : env.stop (spInit.polls) = true := h
    simp [speak, spPoll, spInit, h0]
    intro hf
    rw [h] at hf
    simp at hf
  · intro s hgf
    exact ⟨by simp [stepO, hgf], by simp [stepO, navDispatch, hgf],
      by simp [stepO, navDispatch, hgf],
      fun hl => by simp [stepO, hgf, hl]⟩
  · intro s
    rfl

/-- Witness for C5: with a capture session running, stop-speech changes
neither the token nor the gate; a suppressed `speak` with repeat count 2 is
a silent no-op; a capture admission clears the suppression flag. -/
theorem stop_speech_orthogonality_witness :
    (stepO (runO initState [Ev.captureKey]) Ev.stopSpeakKey).1.cancelSet
      = (runO initState [Ev.captureKey]).cancelSet
  ∧ (stepO (runO initState [Ev.captureKey]) Ev.stopSpeakKey).1.gateHeld
      = (runO initState [Ev.captureKey]).gateHeld
  ∧ speak ⟨fun _ => true, fun _ => WaveOut.err, fun _ => ProcOut.rcFail,
        fun _ => ProcOut.rcFail, fun _ => PyOut.ok⟩ "again" false 2
      = Except.ok ⟨1, 0, 0, 0, 0, []⟩
  ∧ (stepO initState Ev.captureKey).1.suppressSet = false := by
  have h := stop_speech_orthogonality
  exact ⟨(h.1 (runO initState [Ev.captureKey])).1,
    (h.1 (runO initState [Ev.captureKey])).2.1,
    h.2.1 _ "again" false 2 rfl,
    (h.2.2.1 initState (by decide)).1⟩

/-- Counterexample for C5 as stated: the stop-speech hotkey sets the
suppression flag (leaving token and gate untouched); `speak` contains no
clear of that flag, so the next `speak` call observes it still set and
returns after its entry poll with an empty backend trace — the next
narration after a stop-speech is inaudible, refuting "auto-clears when the
next narration call begins, so the next speak call is audible". -/
theorem stop_speech_autoclear_counterexample :
    (stepO initState Ev.stopSpeakKey).1.suppressSet = true
  ∧ (stepO initState Ev.stopSpeakKey).1.cancelSet = false
  ∧ (stepO initState Ev.stopSpeakKey).1.gateHeld = false
  ∧ speak ⟨fun _ => true, fun _ => WaveOut.ok, fun _ => ProcOut.ok,
        fun _ => ProcOut.ok, fun _ => PyOut.ok⟩ "next narration" false 1
      = Except.ok ⟨1, 0, 0, 0, 0, []⟩ :=
  ⟨rfl, rfl, rfl, rfl⟩
